import Mathlib

/-!
Verification of the cheese-board soundboard server (src/index.js).

The file shallowly embeds the parts of the program the claims are about:

* the Playback Orchestrator: the module-level globals `isPlaying`,
  `currentProcess`, the audio `player`, the `POST /play` and `POST /stop`
  handlers, the `stopCurrentPlayback` helper, and the one-shot
  `player.once(AudioPlayerStatus.Idle, ...)` completion handlers;
* the Clip Registry: the `soundMap` object, the `POST /upload` handler,
  `saveMap`, and `broadcastSoundMap`.

Machine-level details (PCM bytes, Discord voice) are irrelevant to the
claims; processes are identified by the order in which they were spawned.
-/

namespace CheeseBoard

/-- Status of the shared audio player (`@discordjs/voice` AudioPlayer):
`idle` when nothing is being streamed, `playing` otherwise (Buffering and
Playing are indistinguishable for the claims). -/
inductive PlayerStatus
  | idle
  | playing
deriving DecidableEq, Repr

/-- Observable actions performed by the request handlers, in program order:
`kill p` models `proc.kill()`, `spawn p` models `spawn(ffmpegPath, ...)`,
`unlink f` models a file deletion (`fs.unlink`), which the source never
performs. -/
inductive Act
  | kill (p : Nat)
  | spawn (p : Nat)
  | unlink (f : String)
deriving DecidableEq, Repr

/-- HTTP-level outcome of the `/play` and `/stop` handlers.
`clipNotFound` is the 404 for a missing `soundMap` key, `fileMissing` the
404 for a missing backing file, `sinkUnavailable` the 500 for
`!connection`, `playing` the `{status: "Playing"}` success body and
`stopped` the `{status: "Stopped"}` body. -/
inductive Resp
  | playing
  | stopped
  | clipNotFound
  | fileMissing
  | sinkUnavailable
deriving DecidableEq, Repr

/-- The mutable module-level state of the Playback Orchestrator:
`isPlaying` and `currentProcess` are the globals of the same names,
`live` is the list of decode processes that have been spawned and neither
killed nor exited (those attached to the sink), `playerStatus` the audio
player status, `armed` the list of pending one-shot
`player.once(AudioPlayerStatus.Idle)` completion handlers (recorded by the
pid of the session that registered them, in registration order), and
`nextPid` a counter supplying fresh process identities. -/
structure OrchState where
  isPlaying : Bool
  currentProcess : Option Nat
  live : List Nat
  playerStatus : PlayerStatus
  armed : List Nat
  nextPid : Nat
deriving DecidableEq, Repr

/-- State at module load: nothing playing, no process, player idle. -/
def initOrch : OrchState :=
  { isPlaying := false, currentProcess := none, live := [],
    playerStatus := PlayerStatus.idle, armed := [], nextPid := 0 }

/-- The player transitions to Idle: every armed one-shot handler fires once
(each runs `currentProcess = null; isPlaying = false;`) and is removed. -/
def fireIdle (s : OrchState) : OrchState :=
  if s.armed = [] then { s with playerStatus := PlayerStatus.idle }
  else { s with playerStatus := PlayerStatus.idle, armed := [],
                isPlaying := false, currentProcess := none }

/-- `stopCurrentPlayback` from src/index.js: if a current process exists and
is not killed (`p ∈ s.live`), kill it and clear `currentProcess`; then, if
the player is already idle resolve immediately, otherwise stop the player,
which fires the Idle transition before the promise resolves.  Returns the
new state and the kill actions performed. -/
def stopCurrentPlayback (s : OrchState) : OrchState × List Act :=
  let t :=
    match s.currentProcess with
    | some p =>
        if p ∈ s.live then
          ({ s with live := s.live.erase p, currentProcess := none }, [Act.kill p])
        else (s, [])
    | none => (s, [])
  if t.1.playerStatus = PlayerStatus.idle then t else (fireIdle t.1, t.2)

/-- The `POST /play` handler.  `found` is the result of the `soundMap[sound]`
lookup, `fileOk` the `fs.stat` check on the backing file, `conn` whether
`connection` is non-null.  On the success path the handler preempts any
active playback via `stopCurrentPlayback`, sets `isPlaying = true`, spawns
a fresh ffmpeg decode process, attaches its stdout to the player
(`player.play`), and registers a one-shot Idle completion handler. -/
def playStep (found fileOk conn : Bool) (s : OrchState) :
    OrchState × Resp × List Act :=
  if found = false then (s, Resp.clipNotFound, [])
  else if fileOk = false then (s, Resp.fileMissing, [])
  else if conn = false then (s, Resp.sinkUnavailable, [])
  else
    let t := if s.isPlaying then stopCurrentPlayback s else (s, [])
    let p := t.1.nextPid
    ({ isPlaying := true, currentProcess := some p, live := t.1.live ++ [p],
       playerStatus := PlayerStatus.playing, armed := t.1.armed ++ [p],
       nextPid := p + 1 },
     Resp.playing, t.2 ++ [Act.spawn p])

/-- The `POST /stop` handler: kill `currentProcess` unconditionally if set
and clear it, call `player.stop()` (firing the Idle transition if the
player was playing), set `isPlaying = false`, and always respond
`{status: "Stopped"}`. -/
def stopStep (s : OrchState) : OrchState × Resp × List Act :=
  let t :=
    match s.currentProcess with
    | some p =>
        ({ s with live := s.live.erase p, currentProcess := none }, [Act.kill p])
    | none => (s, [])
  let u := if t.1.playerStatus = PlayerStatus.playing then fireIdle t.1 else t.1
  ({ u with isPlaying := false }, Resp.stopped, t.2)

/-- Natural completion: the current decode process exits after writing all
its output and the player drains, transitioning to Idle and firing the
armed handlers.  Only possible while the player is playing. -/
def completeStep (s : OrchState) : OrchState :=
  if s.playerStatus = PlayerStatus.playing then
    let t :=
      match s.currentProcess with
      | some p => { s with live := s.live.erase p }
      | none => s
    fireIdle t
  else s

/-- The `currentProcess.on(error)` handler: the process is dead, the handler
sets `isPlaying = false`, clears `currentProcess` and calls `player.stop()`. -/
def procErrorStep (s : OrchState) : OrchState :=
  match s.currentProcess with
  | some p =>
      let t : OrchState :=
        { s with isPlaying := false, currentProcess := none,
                 live := s.live.erase p }
      if t.playerStatus = PlayerStatus.playing then fireIdle t else t
  | none => s

/-- Events observable at the Orchestrator: serialized `/play` requests with
their environment conditions, `/stop` requests, natural decode completion,
and a decode process error. -/
inductive Ev
  | play (found fileOk conn : Bool)
  | stopReq
  | complete
  | procError
deriving DecidableEq, Repr

/-- One serialized event applied to the Orchestrator state. -/
def evStep (s : OrchState) (e : Ev) : OrchState :=
  match e with
  | Ev.play found fileOk conn => (playStep found fileOk conn s).1
  | Ev.stopReq => (stopStep s).1
  | Ev.complete => completeStep s
  | Ev.procError => procErrorStep s

/-- State after a sequence of serialized events starting at module load. -/
def run (evs : List Ev) : OrchState := evs.foldl evStep initOrch

/-- Reachable-state invariant of the Orchestrator: either everything is
idle and no process or handler exists, or exactly one session is active,
its process is the only live one, and its completion handler is the only
armed one. -/
def Inv (s : OrchState) : Prop :=
  match s.playerStatus, s.currentProcess with
  | PlayerStatus.idle, none =>
      s.isPlaying = false ∧ s.armed = [] ∧ s.live = []
  | PlayerStatus.playing, some p =>
      s.isPlaying = true ∧ s.armed = [p] ∧ s.live = [p] ∧ p < s.nextPid
  | _, _ => False

lemma inv_init : Inv initOrch := by
  simp [Inv, initOrch]

lemma inv_idle_fields (s : OrchState) (h : Inv s) (hp : s.isPlaying = false) :
    s.currentProcess = none ∧ s.armed = [] ∧ s.live = [] ∧
      s.playerStatus = PlayerStatus.idle := by
  obtain ⟨ip, cp, lv, ps, ar, np⟩ := s
  cases ps <;> cases cp <;> simp_all [Inv]

lemma inv_playing_fields (s : OrchState) (h : Inv s) (hp : s.isPlaying = true) :
    ∃ p, s.currentProcess = some p ∧ s.armed = [p] ∧ s.live = [p] ∧
      p < s.nextPid ∧ s.playerStatus = PlayerStatus.playing := by
  obtain ⟨ip, cp, lv, ps, ar, np⟩ := s
  cases ps <;> cases cp <;> simp_all [Inv]

/-- A successful `/play` from a non-playing invariant state: no kill, one
spawn, the fresh pid becomes the active session. -/
lemma playStep_idle (s : OrchState) (h : Inv s) (hp : s.isPlaying = false) :
    playStep true true true s =
      ({ isPlaying := true, currentProcess := some s.nextPid,
         live := [s.nextPid], playerStatus := PlayerStatus.playing,
         armed := [s.nextPid], nextPid := s.nextPid + 1 },
       Resp.playing, [Act.spawn s.nextPid]) := by
  obtain ⟨hc, ha, hl, hs⟩ := inv_idle_fields s h hp
  simp [playStep, hp, hc, ha, hl, hs]

/-- A successful `/play` from a playing invariant state with active process
`p`: `p` is killed first, then the fresh pid is spawned. -/
lemma playStep_playing (s : OrchState) (p : Nat) (h : Inv s)
    (hp : s.isPlaying = true) (hc : s.currentProcess = some p) :
    playStep true true true s =
      ({ isPlaying := true, currentProcess := some s.nextPid,
         live := [s.nextPid], playerStatus := PlayerStatus.playing,
         armed := [s.nextPid], nextPid := s.nextPid + 1 },
       Resp.playing, [Act.kill p, Act.spawn s.nextPid]) := by
  obtain ⟨q, hq, ha, hl, _, hs⟩ := inv_playing_fields s h hp
  rw [hq] at hc
  cases hc
  simp [playStep, hp, stopCurrentPlayback, hq, ha, hl, hs, fireIdle]

/-- The state after any successful `/play` from an invariant state. -/
lemma playStep_success (s : OrchState) (h : Inv s) :
    (playStep true true true s).1 =
      { isPlaying := true, currentProcess := some s.nextPid,
        live := [s.nextPid], playerStatus := PlayerStatus.playing,
        armed := [s.nextPid], nextPid := s.nextPid + 1 } ∧
    (playStep true true true s).2.1 = Resp.playing := by
  cases hp : s.isPlaying with
  | false => rw [playStep_idle s h hp]; exact ⟨rfl, rfl⟩
  | true =>
      obtain ⟨p, hc, _⟩ := inv_playing_fields s h hp
      rw [playStep_playing s p h hp hc]
      exact ⟨rfl, rfl⟩

lemma inv_playStep (s : OrchState) (h : Inv s) (found fileOk conn : Bool) :
    Inv (playStep found fileOk conn s).1 := by
  cases found with
  | false => simpa [playStep] using h
  | true =>
      cases fileOk with
      | false => simpa [playStep] using h
      | true =>
          cases conn with
          | false => simpa [playStep] using h
          | true =>
              rw [(playStep_success s h).1]
              simp [Inv]

lemma inv_stopStep (s : OrchState) (h : Inv s) : Inv (stopStep s).1 := by
  cases hp : s.isPlaying with
  | false =>
      obtain ⟨hc, ha, hl, hs⟩ := inv_idle_fields s h hp
      simp [stopStep, hc, hs, Inv, ha, hl]
  | true =>
      obtain ⟨p, hc, ha, hl, _, hs⟩ := inv_playing_fields s h hp
      simp [stopStep, hc, hs, ha, hl, fireIdle, Inv]

lemma inv_completeStep (s : OrchState) (h : Inv s) : Inv (completeStep s) := by
  cases hp : s.isPlaying with
  | false =>
      obtain ⟨_, _, _, hs⟩ := inv_idle_fields s h hp
      simpa [completeStep, hs] using h
  | true =>
      obtain ⟨p, hc, ha, hl, _, hs⟩ := inv_playing_fields s h hp
      simp [completeStep, hs, hc, ha, hl, fireIdle, Inv]

lemma inv_procErrorStep (s : OrchState) (h : Inv s) : Inv (procErrorStep s) := by
  cases hp : s.isPlaying with
  | false =>
      obtain ⟨hc, _, _, _⟩ := inv_idle_fields s h hp
      simpa [procErrorStep, hc] using h
  | true =>
      obtain ⟨p, hc, ha, hl, _, hs⟩ := inv_playing_fields s h hp
      simp [procErrorStep, hc, hs, ha, hl, fireIdle, Inv]

lemma inv_evStep (s : OrchState) (e : Ev) (h : Inv s) : Inv (evStep s e) := by
  cases e with
  | play found fileOk conn => exact inv_playStep s h found fileOk conn
  | stopReq => exact inv_stopStep s h
  | complete => exact inv_completeStep s h
  | procError => exact inv_procErrorStep s h

/-- Every state reachable from module load by serialized events satisfies
the one-active-session invariant. -/
theorem inv_run (evs : List Ev) : Inv (run evs) := by
  suffices h : ∀ s, Inv s → Inv (evs.foldl evStep s) from h initOrch inv_init
  induction evs with
  | nil => exact fun s h => h
  | cons e tl ih => exact fun s h => ih (evStep s e) (inv_evStep s e h)

/-! Claims about the Playback Orchestrator. -/

/-- Claim C1: for every sequence of serialized play/stop (and completion)
operations, at most one decode process is attached to the audio sink at any
observed instant; and whenever a play request finds a session active, the
old session process is killed before the new state with exactly one active
process is established (the play log is exactly a kill of the old process
followed by the spawn of the new one, and the resulting live set is the
new process alone). -/
theorem play_stop_single_active (evs : List Ev) :
    ((run evs).live).length ≤ 1 ∧
    ((run evs).isPlaying = true →
      ∃ pOld, (run evs).currentProcess = some pOld ∧
        (playStep true true true (run evs)).2.2 =
          [Act.kill pOld, Act.spawn ((run evs).nextPid)] ∧
        ((playStep true true true (run evs)).1).live = [(run evs).nextPid]) := by
  have h := inv_run evs
  constructor
  · cases hp : (run evs).isPlaying with
    | false =>
        obtain ⟨_, _, hl, _⟩ := inv_idle_fields (run evs) h hp
        simp [hl]
    | true =>
        obtain ⟨p, _, _, hl, _, _⟩ := inv_playing_fields (run evs) h hp
        simp [hl]
  · intro hp
    obtain ⟨p, hc, _⟩ := inv_playing_fields (run evs) h hp
    refine ⟨p, hc, ?_, ?_⟩
    · rw [playStep_playing (run evs) p h hp hc]
    · rw [playStep_playing (run evs) p h hp hc]

/-- Witness for C1 at the concrete event sequence consisting of one
successful play: the invariant holds and the preemption clause applies. -/
theorem play_stop_single_active_w :
    ((run [Ev.play true true true]).live).length ≤ 1 ∧
    (∃ pOld, (run [Ev.play true true true]).currentProcess = some pOld ∧
      (playStep true true true (run [Ev.play true true true])).2.2 =
        [Act.kill pOld, Act.spawn ((run [Ev.play true true true]).nextPid)] ∧
      ((playStep true true true (run [Ev.play true true true])).1).live =
        [(run [Ev.play true true true]).nextPid]) :=
  ⟨(play_stop_single_active [Ev.play true true true]).1,
   (play_stop_single_active [Ev.play true true true]).2 (by decide)⟩

/-- Claim C2: from any reachable state, play(A) immediately followed by
play(B) (both clips present, sink available) leaves exactly one decode
process active, the one for B; B's play first kills A's process and only
then spawns B's, so A is signaled to terminate before B is spawned and
there is no audio overlap.  Both requests return the Playing success
response. -/
theorem preemption_exactly_one_for_B (evs : List Ev) :
    ∃ pA pB : Nat,
      (playStep true true true (run evs)).1.currentProcess = some pA ∧
      pA ≠ pB ∧
      (playStep true true true ((playStep true true true (run evs)).1)).2.2 =
        [Act.kill pA, Act.spawn pB] ∧
      (playStep true true true ((playStep true true true (run evs)).1)).1.live =
        [pB] ∧
      (playStep true true true ((playStep true true true (run evs)).1)).1.currentProcess =
        some pB ∧
      (playStep true true true (run evs)).2.1 = Resp.playing ∧
      (playStep true true true ((playStep true true true (run evs)).1)).2.1 =
        Resp.playing := by
  have h := inv_run evs
  obtain ⟨hA, hAr⟩ := playStep_success (run evs) h
  have hInvA : Inv (playStep true true true (run evs)).1 :=
    inv_playStep (run evs) h true true true
  have hB := playStep_playing (playStep true true true (run evs)).1
    ((run evs).nextPid) hInvA (by rw [hA]) (by rw [hA])
  refine ⟨(run evs).nextPid, (run evs).nextPid + 1, ?_, by omega, ?_, ?_, ?_, hAr, ?_⟩
  · rw [hA]
  · rw [hB, hA]
  · rw [hB, hA]
  · rw [hB, hA]
  · rw [hB]

/-- Claim C3: every armed completion handler belongs to the currently
active decode handle, in every reachable state.  A handler registered by a
session that was superseded by preemption is consumed by the forced
player-idle transition inside the preempting play, before the newer
session is established; consequently no completion notification from a
superseded handle exists once the newer session is active, and only the
currently active handle's completion can clear the active slot — a stale
notification never transitions the Orchestrator out of the newer
session's state. -/
theorem stale_completion_never_fires (evs : List Ev) (p : Nat)
    (hp : p ∈ (run evs).armed) :
    (run evs).currentProcess = some p := by
  have h := inv_run evs
  cases hip : (run evs).isPlaying with
  | false =>
      obtain ⟨_, ha, _, _⟩ := inv_idle_fields (run evs) h hip
      rw [ha] at hp
      simp at hp
  | true =>
      obtain ⟨q, hc, ha, _, _, _⟩ := inv_playing_fields (run evs) h hip
      rw [ha] at hp
      simp at hp
      rw [hp]
      exact hc

/-- Witness for C3: after one successful play, pid 0's handler is armed
and pid 0 is indeed the current process. -/
theorem stale_completion_never_fires_w :
    0 ∈ (run [Ev.play true true true]).armed ∧
    (run [Ev.play true true true]).currentProcess = some 0 :=
  ⟨by decide, stale_completion_never_fires [Ev.play true true true] 0 (by decide)⟩

/-- Claim C4: the three synchronous failure paths of the `/play` handler —
clip name absent from the registry, registry entry present but backing
file absent, and no active sink connection — each return their error to the
requester and leave the Orchestrator state completely unchanged (so an
idle state stays idle and an existing session is undisturbed), performing
no kill or spawn. -/
theorem play_request_errors (s : OrchState) (found fileOk conn : Bool) :
    (found = false →
      playStep found fileOk conn s = (s, Resp.clipNotFound, [])) ∧
    (found = true → fileOk = false →
      playStep found fileOk conn s = (s, Resp.fileMissing, [])) ∧
    (found = true → fileOk = true → conn = false →
      playStep found fileOk conn s = (s, Resp.sinkUnavailable, [])) := by
  refine ⟨?_, ?_, ?_⟩
  · intro h1
    simp [playStep, h1]
  · intro h1 h2
    simp [playStep, h1, h2]
  · intro h1 h2 h3
    simp [playStep, h1, h2, h3]

/-- Witness for C4: the three error paths evaluated at the initial state. -/
theorem play_request_errors_w :
    playStep false true true initOrch = (initOrch, Resp.clipNotFound, []) ∧
    playStep true false true initOrch = (initOrch, Resp.fileMissing, []) ∧
    playStep true true false initOrch = (initOrch, Resp.sinkUnavailable, []) :=
  ⟨(play_request_errors initOrch false true true).1 rfl,
   (play_request_errors initOrch true false true).2.1 rfl rfl,
   (play_request_errors initOrch true true false).2.2 rfl rfl rfl⟩

/-- The Orchestrator is idle: nothing playing, no current process, player
idle. -/
def OrchIdle (s : OrchState) : Prop :=
  s.isPlaying = false ∧ s.currentProcess = none ∧
    s.playerStatus = PlayerStatus.idle

/-- Claim C5: `/stop` is total and idempotent — it returns the Stopped
success response from every state, and applied to an idle state it leaves
the state exactly as it was. -/
theorem stop_total_idempotent (s : OrchState) :
    (stopStep s).2.1 = Resp.stopped ∧
    (OrchIdle s → (stopStep s).1 = s) := by
  constructor
  · cases hc : s.currentProcess <;> simp [stopStep, hc]
  · rintro ⟨h1, h2, h3⟩
    obtain ⟨ip, cp, lv, ps, ar, np⟩ := s
    simp only at h1 h2 h3
    subst h1 h2 h3
    simp [stopStep]

/-- Witness for C5 at the initial (idle) state. -/
theorem stop_total_idempotent_w :
    (stopStep initOrch).2.1 = Resp.stopped ∧ (stopStep initOrch).1 = initOrch :=
  ⟨(stop_total_idempotent initOrch).1,
   (stop_total_idempotent initOrch).2 ⟨rfl, rfl, rfl⟩⟩

/-! The Clip Registry: `soundMap`, the `POST /upload` handler, `saveMap`
and `broadcastSoundMap`. -/

/-- One `soundMap` entry: `{filename, emoji}`. -/
structure Clip where
  filename : String
  emoji : String
deriving DecidableEq, Repr

/-- `soundMap[name] = c` on a JS object: replace in place if the key
exists, append otherwise (JS string-keyed objects preserve insertion
order). -/
def putEntry : List (String × Clip) → String → Clip → List (String × Clip)
  | [], name, c => [(name, c)]
  | (k, v) :: rest, name, c =>
      if k = name then (k, c) :: rest else (k, v) :: putEntry rest name c

/-- `soundMap[name]` lookup. -/
def getEntry : List (String × Clip) → String → Option Clip
  | [], _ => none
  | (k, v) :: rest, name => if k = name then some v else getEntry rest name

lemma getEntry_putEntry (m : List (String × Clip)) (name : String) (c : Clip) :
    getEntry (putEntry m name c) name = some c := by
  induction m with
  | nil => simp [putEntry, getEntry]
  | cons kv rest ih =>
      obtain ⟨k, v⟩ := kv
      by_cases h : k = name <;> simp [putEntry, getEntry, h, ih]

lemma putEntry_mem (m : List (String × Clip)) (name : String) (c : Clip) :
    (name, c) ∈ putEntry m name c := by
  induction m with
  | nil => simp [putEntry]
  | cons kv rest ih =>
      obtain ⟨k, v⟩ := kv
      by_cases h : k = name
      · subst h
        simp [putEntry]
      · simp [putEntry, h]
        right
        exact ih

/-- Server-side registry state: the in-memory `soundMap` (insertion
ordered), the set of stored sound files on disk, and a counter supplying
the collision-resistant generated identifiers (`crypto.randomUUID`). -/
structure Store where
  map : List (String × Clip)
  files : List String
  nextId : Nat
deriving DecidableEq, Repr

/-- The generated stored filename `id + ext`. -/
def freshName (n : Nat) (ext : String) : String := toString n ++ ext

/-- `path.extname(file.originalname) || ".mp3"`: the empty extension is
falsy and defaults to `.mp3`. -/
def chooseExt (e : String) : String := if e = "" then ".mp3" else e

/-- `emoji || ""`: an absent field (undefined) becomes the empty string;
an empty string stays empty. -/
def orEmpty (e : Option String) : String := e.getD ""

/-- Outcome of the `/upload` handler: the 400 for a missing file or name,
the 500 for a failed sound-file write, or the success redirect to `/`. -/
inductive UpResp
  | badRequest
  | saveFileError
  | redirectHome
deriving DecidableEq, Repr

/-- Effects of the `/upload` handler in program order: `writeSound` is the
completed `fs.writeFile` of the uploaded bytes, `persistSnapshot` the
completed `saveMap()` write of `mappings.json`, `broadcast` the
`broadcastSoundMap()` push to all subscribers, `respond` the HTTP
response, and `unlinkFile` a deletion of a stored file, which the source
never performs. -/
inductive UpAct
  | writeSound (fname : String)
  | persistSnapshot
  | broadcast
  | respond (r : UpResp)
  | unlinkFile (fname : String)
deriving DecidableEq, Repr

/-- The `POST /upload` handler.  `hasFile` is whether multer delivered a
file, `name`/`emoji` the form fields, `origExt` the original extension,
`writeOk` whether the `fs.writeFile` of the sound bytes succeeds and
`persistOk` whether the `saveMap()` snapshot write succeeds.  On the
success path the handler stores the bytes under a freshly generated
filename, mutates `soundMap` in memory, awaits `saveMap()`, broadcasts,
and redirects.  The `await saveMap()` call is not wrapped in try/catch: if
it rejects, the handler aborts with an unhandled rejection — the map
mutation stands, but no broadcast happens and no response is sent. -/
def uploadHandler (hasFile : Bool) (name : String) (emoji : Option String)
    (origExt : String) (writeOk persistOk : Bool) (st : Store) :
    Store × List UpAct × Option UpResp :=
  if hasFile = false ∨ name = "" then
    (st, [UpAct.respond UpResp.badRequest], some UpResp.badRequest)
  else
    let filename := freshName st.nextId (chooseExt origExt)
    if writeOk = false then
      ({ st with nextId := st.nextId + 1 },
       [UpAct.respond UpResp.saveFileError], some UpResp.saveFileError)
    else
      let st1 : Store :=
        { st with files := st.files ++ [filename], nextId := st.nextId + 1 }
      let st2 : Store :=
        { st1 with
            map := putEntry st1.map name (Clip.mk filename (orEmpty emoji)) }
      if persistOk = false then
        (st2, [UpAct.writeSound filename], none)
      else
        (st2,
         [UpAct.writeSound filename, UpAct.persistSnapshot, UpAct.broadcast,
          UpAct.respond UpResp.redirectHome],
         some UpResp.redirectHome)

/-- Counterexample for claim C6: a concrete upload whose snapshot write
fails.  The in-memory map does reflect the mutation, but the handler
performs no broadcast and sends no response at all — in particular the
persistence failure is not surfaced to the caller as a write error,
refuting the claim as stated. -/
theorem persistence_failure_not_surfaced :
    uploadHandler true "siren" (some "x") ".mp3" true false (Store.mk [] [] 0) =
      (Store.mk [("siren", Clip.mk "0.mp3" "x")] ["0.mp3"] 1,
       [UpAct.writeSound "0.mp3"], none) := by
  decide

/-- Claim C6 (amended): after any `put` via upload, `get` on the name
returns the newly written clip even when the snapshot write fails — the
in-memory map reflects the mutation before persistence is attempted.  The
persistence failure, however, is not surfaced to the caller as a write
error: the handler sends no response at all and skips the broadcast. -/
theorem read_your_write_despite_persist_failure (st : Store) (name : String)
    (emoji : Option String) (origExt : String) (h : name ≠ "") :
    getEntry (uploadHandler true name emoji origExt true false st).1.map name =
      some (Clip.mk (freshName st.nextId (chooseExt origExt)) (orEmpty emoji)) ∧
    (uploadHandler true name emoji origExt true false st).2.2 = none ∧
    UpAct.broadcast ∉ (uploadHandler true name emoji origExt true false st).2.1 ∧
    (∀ r, UpAct.respond r ∉
      (uploadHandler true name emoji origExt true false st).2.1) := by
  simp [uploadHandler, h, getEntry_putEntry]

/-- Witness for C6's amended theorem at a concrete store and upload. -/
theorem read_your_write_despite_persist_failure_w :
    getEntry (uploadHandler true "a" none "" true false (Store.mk [] [] 0)).1.map "a" =
      some (Clip.mk (freshName 0 (chooseExt "")) (orEmpty none)) ∧
    (uploadHandler true "a" none "" true false (Store.mk [] [] 0)).2.2 = none ∧
    UpAct.broadcast ∉ (uploadHandler true "a" none "" true false (Store.mk [] [] 0)).2.1 ∧
    (∀ r, UpAct.respond r ∉
      (uploadHandler true "a" none "" true false (Store.mk [] [] 0)).2.1) :=
  read_your_write_despite_persist_failure (Store.mk [] [] 0) "a" none ""
    (by decide)

/-- Claim C7: whenever the upload broadcast or the success acknowledgement
happens at all, the handler's effect log is exactly the sound-file write,
then the completed snapshot persistence, then the broadcast, then the
response — so every registry mutation is persisted before subscribers are
notified and before the mutation is acknowledged to the uploader. -/
theorem persist_before_broadcast_and_ack (hasFile : Bool) (name : String)
    (emoji : Option String) (origExt : String) (writeOk persistOk : Bool)
    (st : Store)
    (h : UpAct.broadcast ∈
          (uploadHandler hasFile name emoji origExt writeOk persistOk st).2.1 ∨
        UpAct.respond UpResp.redirectHome ∈
          (uploadHandler hasFile name emoji origExt writeOk persistOk st).2.1) :
    ∃ f, (uploadHandler hasFile name emoji origExt writeOk persistOk st).2.1 =
      [UpAct.writeSound f, UpAct.persistSnapshot, UpAct.broadcast,
       UpAct.respond UpResp.redirectHome] := by
  by_cases h1 : hasFile = false ∨ name = ""
  · simp [uploadHandler, h1] at h
  · by_cases h2 : writeOk = false
    · simp [uploadHandler, h1, h2] at h
    · by_cases h3 : persistOk = false
      · simp [uploadHandler, h1, h2, h3] at h
      · exact ⟨freshName st.nextId (chooseExt origExt),
          by simp [uploadHandler, h1, h2, h3]⟩

/-- Witness for C7 at a concrete successful upload. -/
theorem persist_before_broadcast_and_ack_w :
    ∃ f, (uploadHandler true "a" none "" true true (Store.mk [] [] 0)).2.1 =
      [UpAct.writeSound f, UpAct.persistSnapshot, UpAct.broadcast,
       UpAct.respond UpResp.redirectHome] :=
  persist_before_broadcast_and_ack true "a" none "" true true
    (Store.mk [] [] 0) (Or.inl (by decide))

/-- File-system level writes performed when persisting the registry
snapshot. -/
inductive FsWrite
  | fileWrite (path content : String)
  | fileRename (src tgt : String)
deriving DecidableEq, Repr

/-- `MAP_FILE`, the single persisted snapshot path. -/
def mapFilePath : String := "sounds/mappings.json"

/-- `saveMap` from src/index.js: one direct `fs.writeFile(MAP_FILE, ...)`
of the serialized map.  No temporary file is written and nothing is
renamed. -/
def saveMapWrites (serialized : String) : List FsWrite :=
  [FsWrite.fileWrite mapFilePath serialized]

/-- A write sequence replaces `target` atomically w.r.t. crashes if it
renames something onto `target` and never writes `target` directly. -/
def usesTempThenReplace (l : List FsWrite) (target : String) : Bool :=
  l.any (fun a =>
    match a with
    | FsWrite.fileRename _ t => t == target
    | _ => false) &&
  l.all (fun a =>
    match a with
    | FsWrite.fileWrite p _ => !(p == target)
    | _ => true)

/-- Content of the snapshot file if a crash interrupts an in-place
overwrite after `k` bytes of the new content have been written. -/
def fileAfterCrash (newContent : String) (k : Nat) : String :=
  newContent.take k

/-- Claim C8 (code bug): `saveMap` overwrites the snapshot file in place
with a single direct write — it does not use write-to-temp-then-replace or
any equivalent — and a crash midway through that write leaves the file
holding a strict prefix of the new content, which is neither the
previously valid snapshot nor the new one. -/
theorem snapshot_write_not_crash_atomic :
    usesTempThenReplace (saveMapWrites "new-snapshot") mapFilePath = false ∧
    saveMapWrites "new-snapshot" =
      [FsWrite.fileWrite mapFilePath "new-snapshot"] ∧
    fileAfterCrash "new-snapshot" 3 ≠ "old-snapshot" ∧
    fileAfterCrash "new-snapshot" 3 ≠ "new-snapshot" := by
  decide

/-- Claim C9: an upload whose emoji field is absent or empty succeeds
(the handler only rejects a missing file or name), stores the clip with
the empty-string emoji, and both a subsequent `get` and the snapshot (the
`soundMap` served by `/mappings` and pushed to subscribers) return that
clip with emoji equal to the empty string. -/
theorem missing_emoji_stored_empty (st : Store) (name : String)
    (origExt : String) (emoji : Option String) (hn : name ≠ "")
    (he : emoji = none ∨ emoji = some "") :
    (uploadHandler true name emoji origExt true true st).2.2 =
      some UpResp.redirectHome ∧
    getEntry (uploadHandler true name emoji origExt true true st).1.map name =
      some (Clip.mk (freshName st.nextId (chooseExt origExt)) "") ∧
    (name, Clip.mk (freshName st.nextId (chooseExt origExt)) "") ∈
      (uploadHandler true name emoji origExt true true st).1.map := by
  have he2 : orEmpty emoji = "" := by
    rcases he with h | h <;> simp [orEmpty, h]
  refine ⟨?_, ?_, ?_⟩
  · simp [uploadHandler, hn]
  · simp [uploadHandler, hn, he2, getEntry_putEntry]
  · simp only [uploadHandler, hn, he2]
    simp only [or_false, Bool.true_eq_false, false_or, if_false, if_neg hn]
    exact putEntry_mem st.map name _

/-- Witness for C9 at a concrete upload with an absent emoji field. -/
theorem missing_emoji_stored_empty_w :
    (uploadHandler true "a" none "" true true (Store.mk [] [] 0)).2.2 =
      some UpResp.redirectHome ∧
    getEntry (uploadHandler true "a" none "" true true (Store.mk [] [] 0)).1.map "a" =
      some (Clip.mk (freshName 0 (chooseExt "")) "") ∧
    ("a", Clip.mk (freshName 0 (chooseExt "")) "") ∈
      (uploadHandler true "a" none "" true true (Store.mk [] [] 0)).1.map :=
  missing_emoji_stored_empty (Store.mk [] [] 0) "a" "" none (by decide)
    (Or.inl rfl)

lemma stopCurrentPlayback_log (s : OrchState) :
    (stopCurrentPlayback s).2 = [] ∨
      ∃ p, (stopCurrentPlayback s).2 = [Act.kill p] := by
  rcases hc : s.currentProcess with _ | p
  · left
    by_cases hps : s.playerStatus = PlayerStatus.idle <;>
      simp [stopCurrentPlayback, hc, hps]
  · by_cases hm : p ∈ s.live
    · right
      refine ⟨p, ?_⟩
      by_cases hps : s.playerStatus = PlayerStatus.idle <;>
        simp [stopCurrentPlayback, hc, hm, hps]
    · left
      by_cases hps : s.playerStatus = PlayerStatus.idle <;>
        simp [stopCurrentPlayback, hc, hm, hps]

lemma playStep_no_unlink (s : OrchState) (f fo c : Bool) (g : String) :
    Act.unlink g ∉ (playStep f fo c s).2.2 := by
  unfold playStep
  cases f with
  | false => simp
  | true =>
      cases fo with
      | false => simp
      | true =>
          cases c with
          | false => simp
          | true =>
              simp only [Bool.true_eq_false, if_false]
              cases hip : s.isPlaying with
              | false => simp
              | true =>
                  simp only [if_true]
                  rcases stopCurrentPlayback_log s with h | ⟨p, h⟩ <;>
                    simp [h]

lemma stopStep_no_unlink (s : OrchState) (g : String) :
    Act.unlink g ∉ (stopStep s).2.2 := by
  unfold stopStep
  cases hc : s.currentProcess <;> simp

/-- Claim C10: no operation deletes a stored sound file.  Re-uploading
under an existing name writes the new bytes under the freshly generated
filename, replaces the registry entry, and leaves the previously
referenced file on disk: the file list only gains the new name, the old
file is still present, and the fresh name differs from the old one.  The
upload log contains no file deletion, and neither does the log of any
play or stop request. -/
theorem no_operation_deletes_files (st : Store) (name : String)
    (emoji : Option String) (origExt : String) (oldClip : Clip)
    (hn : name ≠ "")
    (hold : getEntry st.map name = some oldClip)
    (holdf : oldClip.filename ∈ st.files)
    (hfresh : freshName st.nextId (chooseExt origExt) ∉ st.files) :
    (uploadHandler true name emoji origExt true true st).1.files =
      st.files ++ [freshName st.nextId (chooseExt origExt)] ∧
    oldClip.filename ∈ (uploadHandler true name emoji origExt true true st).1.files ∧
    freshName st.nextId (chooseExt origExt) ≠ oldClip.filename ∧
    getEntry (uploadHandler true name emoji origExt true true st).1.map name =
      some (Clip.mk (freshName st.nextId (chooseExt origExt)) (orEmpty emoji)) ∧
    (∀ g, UpAct.unlinkFile g ∉
      (uploadHandler true name emoji origExt true true st).2.1) ∧
    (∀ (s : OrchState) (f fo c : Bool) (g : String),
      Act.unlink g ∉ (playStep f fo c s).2.2 ∧
      Act.unlink g ∉ (stopStep s).2.2) := by
  refine ⟨?_, ?_, ?_, ?_, ?_, ?_⟩
  · simp [uploadHandler, hn]
  · simp [uploadHandler, hn, holdf]
  · intro hcontra
    rw [hcontra] at hfresh
    exact hfresh holdf
  · simp [uploadHandler, hn, getEntry_putEntry]
  · intro g
    simp [uploadHandler, hn]
  · exact fun s f fo c g => ⟨playStep_no_unlink s f fo c g, stopStep_no_unlink s g⟩

/-- Witness for C10: re-uploading "siren" over an existing entry keeps the
old file on disk and installs the fresh one. -/
theorem no_operation_deletes_files_w :
    (uploadHandler true "siren" none ".mp3" true true
        (Store.mk [("siren", Clip.mk "old.mp3" "")] ["old.mp3"] 0)).1.files =
      ["old.mp3"] ++ [freshName 0 (chooseExt ".mp3")] ∧
    "old.mp3" ∈ (uploadHandler true "siren" none ".mp3" true true
        (Store.mk [("siren", Clip.mk "old.mp3" "")] ["old.mp3"] 0)).1.files ∧
    freshName 0 (chooseExt ".mp3") ≠ "old.mp3" ∧
    getEntry (uploadHandler true "siren" none ".mp3" true true
        (Store.mk [("siren", Clip.mk "old.mp3" "")] ["old.mp3"] 0)).1.map "siren" =
      some (Clip.mk (freshName 0 (chooseExt ".mp3")) (orEmpty none)) ∧
    (∀ g, UpAct.unlinkFile g ∉
      (uploadHandler true "siren" none ".mp3" true true
        (Store.mk [("siren", Clip.mk "old.mp3" "")] ["old.mp3"] 0)).2.1) ∧
    (∀ (s : OrchState) (f fo c : Bool) (g : String),
      Act.unlink g ∉ (playStep f fo c s).2.2 ∧
      Act.unlink g ∉ (stopStep s).2.2) :=
  no_operation_deletes_files
    (Store.mk [("siren", Clip.mk "old.mp3" "")] ["old.mp3"] 0)
    "siren" none ".mp3" (Clip.mk "old.mp3" "") (by decide) (by decide)
    (by decide) (by decide)

end CheeseBoard
